import Mathlib

/-
Verification development for the agentic RAG news pipeline
(query refinement, entity extraction, vector search, relevance
filtering, output-style selection, claim extraction and fact
verification).

Python strings are modelled as `List Char` (`Str`); every remote call
(language model, vector index, JSON parse) is modelled as an explicit
`Except Str _` argument, `.error` standing for a raised exception and
`.ok` for the returned payload.  Float scores are modelled as exact
rationals built with `mkRat`.
-/

/-! ## Python string primitives over `List Char` -/

/-- A Python string: a sequence of characters. -/
abbrev Str := List Char

/-- Character list of a Lean string literal. -/
def chars (s : String) : Str := s.toList

/-- Python `s.startswith(p)`. -/
def pyStartsWith : Str → Str → Bool
  | _, [] => true
  | [], _ :: _ => false
  | c :: rest, p :: ps => c == p && pyStartsWith rest ps

/-- Python `pat in s` (substring containment). -/
def pyContains : Str → Str → Bool
  | [], pat => pyStartsWith [] pat
  | c :: rest, pat => pyStartsWith (c :: rest) pat || pyContains rest pat

/-- Drop leading whitespace characters. -/
def pyDropWhileWs : Str → Str
  | [] => []
  | c :: rest => if c.isWhitespace then pyDropWhileWs rest else c :: rest

/-- Python `s.strip()`: remove leading and trailing whitespace. -/
def pyStrip (s : Str) : Str :=
  (pyDropWhileWs ((pyDropWhileWs s).reverse)).reverse

/-- Python `s.lower()`. -/
def pyLower (s : Str) : Str := s.map Char.toLower

/-- Python `s.split(sep)` for a single-character separator. -/
def pySplitCh (sep : Char) : Str → List Str
  | [] => [[]]
  | c :: rest =>
    if c == sep then [] :: pySplitCh sep rest
    else
      match pySplitCh sep rest with
      | [] => [[c]]
      | seg :: segs => (c :: seg) :: segs

/-- Python `s.split(pat)[0]`: the text before the first occurrence of
`pat` (all of `s` when `pat` does not occur). -/
def pyTakeUntil (pat : Str) : Str → Str
  | [] => []
  | c :: rest =>
    if pyStartsWith (c :: rest) pat then [] else c :: pyTakeUntil pat rest

/-- The text after the first occurrence of `pat` (empty when `pat` does
not occur).  `pyTakeUntil pat (pyAfter pat s)` is Python
`s.split(pat)[1]` when `pat` occurs in `s`. -/
def pyAfter (pat : Str) : Str → Str
  | [] => []
  | c :: rest =>
    if pyStartsWith (c :: rest) pat then List.drop pat.length (c :: rest)
    else pyAfter pat rest

/-- Worker for `pyReplace`; the fuel bounds the number of steps and is
always sufficient when it starts at the length of the string. -/
def pyReplaceFuel (pat repl : Str) : ℕ → Str → Str
  | _, [] => []
  | 0, s => s
  | fuel + 1, c :: rest =>
    if pyStartsWith (c :: rest) pat
      then repl ++ pyReplaceFuel pat repl fuel (List.drop pat.length (c :: rest))
      else c :: pyReplaceFuel pat repl fuel rest

/-- Python `s.replace(pat, repl)`: replace every non-overlapping
occurrence of `pat`, scanning left to right (`pat` nonempty). -/
def pyReplace (pat repl s : Str) : Str := pyReplaceFuel pat repl s.length s

/-- Decimal digit string to natural number. -/
def digitsToNat (ds : List Char) : ℕ :=
  ds.foldl (fun n c => 10 * n + (c.toNat - 48)) 0

/-- Python `float(s)` restricted to plain signed decimal literals
(`"12"`, `"0.7"`, `".5"`, `"-3."`); other inputs (and the exotic float
syntaxes the pipeline never produces) yield `none`, which the callers
treat as a raised `ValueError`.  The value `sign * (ip + fp / 10 ^ k)`
is built as a single normalized fraction
`mkRat (sign * (ip * 10 ^ k + fp)) (10 ^ k)`. -/
def parseFloat (text : Str) : Option ℚ :=
  let signed : ℤ × Str :=
    match pyStrip text with
    | '-' :: u => (-1, u)
    | '+' :: u => (1, u)
    | u => (1, u)
  match pySplitCh '.' signed.2 with
  | [ip] =>
    if !ip.isEmpty && ip.all Char.isDigit
      then some (mkRat (signed.1 * digitsToNat ip) 1)
      else none
  | [ip, fp] =>
    if (!ip.isEmpty || !fp.isEmpty) && ip.all Char.isDigit && fp.all Char.isDigit
      then some (mkRat (signed.1 * (digitsToNat ip * 10 ^ fp.length + digitsToNat fp)) (10 ^ fp.length))
      else none
  | _ => none

/-! ## Data model -/

/-- One retrieved document projection, as built by `process_results` in
step-03-view-agent.py (dict keys Title, Content, Date, URL,
`Similarity Score`, ID, Source). -/
structure Article where
  Title : Str
  Content : Str
  Date : Str
  URL : Str
  SimilarityScore : ℚ
  ID : Str
  Source : Str
deriving DecidableEq

/-- One raw vector-index match: `{id, score}` (metadata omitted; it is
only copied through). -/
structure PCMatch where
  id : Str
  score : ℚ
deriving DecidableEq

/-- The value stored under `'score'` in the relevance analysis dict: a
float on the success path, the literal string `"Error"` on the
call-failure path. -/
inductive ScoreVal where
  | num (x : ℚ)
  | sentinel (s : Str)
deriving DecidableEq

/-- One relevance-analysis record: `{'score': …, 'reasoning': …,
'title': …}` (relevance_agent.py lines 103-107 and 117-121). -/
structure RelevanceInfo where
  score : ScoreVal
  reasoning : Str
  title : Str
deriving DecidableEq

/-- One per-(claim, article) verification record
(fact_verification_agent.py lines 141-148). -/
structure VerificationRecord where
  article_id : Str
  article_title : Str
  article_source : Str
  article_url : Str
  verification_status : Str
  reasoning : Str
deriving DecidableEq

/-- An EntitySet: mapping from entity-type label to extracted surface
strings, in insertion order. -/
abbrev EntityMap := List (Str × List Str)

/-! ## Query Refiner (query_refinement_agent.py, lines 15-45) -/

/-- `QueryRefinementAgent.generate_refined_query`.  The model call is
the `completion` argument; `.error` models a raised exception, `.ok`
the completion text.  The code strips the completion, reverts to the
original query when the stripped candidate is more than three times as
long, and returns the original query on any exception. -/
def generate_refined_query (original_query : Str) (completion : Except Str Str) : Str :=
  match completion with
  | Except.error _ => original_query
  | Except.ok content =>
    if (pyStrip content).length > original_query.length * 3 then original_query
    else pyStrip content

/-! ## Entity Extractor (entity_extraction_agent.py, lines 21-79) -/

/-- `EntityExtractionAgent.extract_entities`.  `response` models the
chat-completion call, `parseJson` models `json.loads` on the stripped
response text.  Any exception in the try block yields the empty dict. -/
def extract_entities (response : Except Str Str)
    (parseJson : Str → Except Str EntityMap) : EntityMap :=
  match response with
  | Except.error _ => []
  | Except.ok content =>
    match parseJson (pyStrip content) with
    | Except.error _ => []
    | Except.ok entities => entities

/-- The flat list built by `EntityExtractionAgent.process_query`
(lines 75-77): `all_entities.extend(entity_list)` for each entity type,
with no case folding and no de-duplication. -/
def process_query_flat : EntityMap → List Str
  | [] => []
  | (_, entity_list) :: rest => entity_list ++ process_query_flat rest

/-- The flat list built in `main` of step-03-view-agent.py
(lines 457-461) to populate the `keywords` `$in` filter:
`all_entities.extend([entity.lower() for entity in entity_list])`
guarded by `if entity_list:`. -/
def keyword_filter_entities : EntityMap → List Str
  | [] => []
  | (_, entity_list) :: rest =>
    (if entity_list.isEmpty then [] else entity_list.map pyLower)
      ++ keyword_filter_entities rest

/-! ## Search Client (step-03-view-agent.py lines 89-135,
step-03-view-search.py lines 38-76) -/

/-- Descending-score order on matches (`sorted(..., key=score,
reverse=True)`). -/
def scoreDesc (a b : PCMatch) : Prop := b.score ≤ a.score

instance : DecidableRel scoreDesc :=
  fun a b => inferInstanceAs (Decidable (b.score ≤ a.score))

instance : IsTotal PCMatch scoreDesc := ⟨fun a b => le_total b.score a.score⟩

instance : IsTrans PCMatch scoreDesc := ⟨fun _ _ _ h1 h2 => le_trans h2 h1⟩

/-- `search_pinecone`, from the `index.query` call on: `search_result`
models the index call (`.ok` carries the oversized match pool), the
matches are sorted by score descending and truncated to `top_k`; an
exception yields the empty match list. -/
def search_pinecone (search_result : Except Str (List PCMatch)) (top_k : ℕ) : List PCMatch :=
  match search_result with
  | Except.error _ => []
  | Except.ok pool => (pool.insertionSort scoreDesc).take top_k

/-! ## Relevance Filter (relevance_agent.py, lines 19-123) -/

/-- Score-and-reasoning extraction from one model response
(relevance_agent.py lines 83-100): find the first line containing
`SCORE:`, parse the text after it as a float; no such line gives the
0.5 default; a float parse failure gives 0.5 with an error-prefixed
reasoning; reasoning is otherwise the text before the first `SCORE:`,
stripped. -/
def parse_relevance (result_text : Str) : ℚ × Str :=
  match (pySplitCh '\n' result_text).filter (fun line => pyContains line (chars "SCORE:")) with
  | [] => (mkRat 1 2, pyStrip (pyTakeUntil (chars "SCORE:") result_text))
  | score_line :: _ =>
    let score_text := pyStrip (pyTakeUntil (chars "SCORE:") (pyAfter (chars "SCORE:") score_line))
    match parseFloat score_text with
    | some relevance_score => (relevance_score, pyStrip (pyTakeUntil (chars "SCORE:") result_text))
    | none => (mkRat 1 2, chars "Error parsing score. " ++ result_text)

/-- `RelevanceAgent.filter_by_relevance` with the per-article model
call abstracted into the second component of each pair.  On a response
the parsed score is recorded and the article kept iff score ≥
threshold; on a raised call the article is kept unconditionally and an
`"Error"` score sentinel recorded. -/
def filter_by_relevance (threshold : ℚ) :
    List (Article × Except Str Str) → List Article × List (Str × RelevanceInfo)
  | [] => ([], [])
  | (result, Except.ok result_text) :: rest =>
    ((if (parse_relevance result_text).1 ≥ threshold
        then result :: (filter_by_relevance threshold rest).1
        else (filter_by_relevance threshold rest).1),
      (result.ID, RelevanceInfo.mk (ScoreVal.num (parse_relevance result_text).1)
          (parse_relevance result_text).2 result.Title)
        :: (filter_by_relevance threshold rest).2)
  | (result, Except.error e) :: rest =>
    (result :: (filter_by_relevance threshold rest).1,
      (result.ID, RelevanceInfo.mk (ScoreVal.sentinel (chars "Error"))
          (chars "Error during evaluation: " ++ e) result.Title)
        :: (filter_by_relevance threshold rest).2)

/-- Whether one loop iteration of `filter_by_relevance` appends its
article to `filtered_results`. -/
def relevance_keep (threshold : ℚ) : Article × Except Str Str → Bool
  | (_, Except.error _) => true
  | (_, Except.ok result_text) => decide ((parse_relevance result_text).1 ≥ threshold)

/-- The relevance-analysis entry one loop iteration of
`filter_by_relevance` records for its article. -/
def relevance_entry : Article × Except Str Str → Str × RelevanceInfo
  | (a, Except.ok result_text) =>
    (a.ID, RelevanceInfo.mk (ScoreVal.num (parse_relevance result_text).1)
      (parse_relevance result_text).2 a.Title)
  | (a, Except.error e) =>
    (a.ID, RelevanceInfo.mk (ScoreVal.sentinel (chars "Error"))
      (chars "Error during evaluation: " ++ e) a.Title)

/-! ## Style Selector (output_style_agent.py, lines 14-74) -/

/-- The keys of `OutputStyleAgent.styles`, in dict insertion order. -/
def style_keys : List Str :=
  [chars "event_list", chars "summary_paragraph", chars "table_structure",
   chars "point_form", chars "question_answer", chars "timeline"]

/-- `OutputStyleAgent.determine_output_style`: strip and lower-case the
model output, return the first known style tag occurring in it as a
substring, defaulting to `summary_paragraph` when none occurs or the
call raises. -/
def determine_output_style (response : Except Str Str) : Str :=
  match response with
  | Except.error _ => chars "summary_paragraph"
  | Except.ok txt =>
    match style_keys.find? (fun style => pyContains (pyLower (pyStrip txt)) style) with
    | some style => style
    | none => chars "summary_paragraph"

/-! ## Fact Verifier (fact_verification_agent.py) -/

/-- The list comprehension of `extract_claims_from_summary` (line 53):
keep the lines whose stripped form starts with `CLAIM:`, mapped through
`line.replace("CLAIM: ", "").strip()`. -/
def extract_claims_lines : List Str → List Str
  | [] => []
  | line :: rest =>
    if pyStartsWith (pyStrip line) (chars "CLAIM:")
      then pyStrip (pyReplace (chars "CLAIM: ") [] line) :: extract_claims_lines rest
      else extract_claims_lines rest

/-- `FactVerificationAgent.extract_claims_from_summary` (lines 41-59)
with the model call abstracted: on success parse the response lines, on
a raised call return the empty list. -/
def extract_claims_from_summary (response : Except Str Str) : List Str :=
  match response with
  | Except.error _ => []
  | Except.ok response_text => extract_claims_lines (pySplitCh '\n' response_text)

/-- The `[{source}]({url})` citation link built at line 182 of
fact_verification_agent.py. -/
def source_link (r : VerificationRecord) : Str :=
  chars "[" ++ r.article_source ++ chars "](" ++ r.article_url ++ chars ")"

/-- The supporting-articles collection loop (lines 178-183): one
citation per record whose status is `DIRECTLY SUPPORTED` or
`INDIRECTLY SUPPORTED`. -/
def supporting_articles : List VerificationRecord → List Str
  | [] => []
  | r :: rest =>
    if r.verification_status = chars "DIRECTLY SUPPORTED"
        ∨ r.verification_status = chars "INDIRECTLY SUPPORTED"
      then source_link r :: supporting_articles rest
      else supporting_articles rest

/-- The tri-level verdict (lines 186-191): `Verified` at ≥ 2 supporting
citations, `Partially Verified` at exactly 1, else `Not Verified`. -/
def claim_verdict (supporting : List Str) : Str :=
  if 2 ≤ supporting.length then chars "Verified"
  else if supporting.length = 1 then chars "Partially Verified"
  else chars "Not Verified"

/-- The formatted per-claim result string (lines 193-198). -/
def format_claim_result (claim : Str) (results : List VerificationRecord) : Str :=
  let supporting := supporting_articles results
  let status := claim_verdict supporting
  if supporting.isEmpty
    then claim ++ chars " - No supporting articles : (" ++ status ++ chars ")"
    else claim ++ chars " - " ++ List.intercalate (chars ", ") supporting
          ++ chars " : (" ++ status ++ chars ")"

/-! ## Concrete fixtures used by witnesses and counterexamples -/

/-- A directly-supported verification record fixture. -/
def recDS : VerificationRecord :=
  ⟨chars "a1", chars "T1", chars "newsfirst_data", chars "url1",
   chars "DIRECTLY SUPPORTED", chars "r1"⟩

/-- An indirectly-supported verification record fixture. -/
def recIS : VerificationRecord :=
  ⟨chars "a2", chars "T2", chars "newswire_data", chars "url2",
   chars "INDIRECTLY SUPPORTED", chars "r2"⟩

/-- A not-supported verification record fixture. -/
def recNS : VerificationRecord :=
  ⟨chars "a3", chars "T3", chars "adaderana_data", chars "url3",
   chars "NOT SUPPORTED", chars "r3"⟩

/-- A second not-supported verification record fixture. -/
def recNS2 : VerificationRecord :=
  ⟨chars "a4", chars "T4", chars "adaderana_data", chars "url4",
   chars "NOT SUPPORTED", chars "r4"⟩

/-- An article fixture. -/
def articleA : Article :=
  ⟨chars "Title A", chars "Body A", chars "2024-05-01", chars "urlA",
   mkRat 9 10, chars "a1", chars "newsfirst_data"⟩

/-- A second article fixture. -/
def articleB : Article :=
  ⟨chars "Title B", chars "Body B", chars "2024-05-02", chars "urlB",
   mkRat 4 5, chars "b2", chars "newswire_data"⟩

/-! ## Helper lemmas -/

/-- The claim-extraction loop is the filter/map it implements. -/
theorem extract_claims_lines_eq (ls : List Str) :
    extract_claims_lines ls
      = ((ls.filter (fun line => pyStartsWith (pyStrip line) (chars "CLAIM:"))).map
          (fun line => pyStrip (pyReplace (chars "CLAIM: ") [] line))) := by
  induction ls with
  | nil => rfl
  | cons line rest ih =>
    by_cases h : pyStartsWith (pyStrip line) (chars "CLAIM:") = true
    · simp [extract_claims_lines, List.filter_cons, h, ih]
    · rw [Bool.not_eq_true] at h
      simp [extract_claims_lines, List.filter_cons, h, ih]

/-- The supporting-articles loop is the filter/map it implements. -/
theorem supporting_articles_eq (records : List VerificationRecord) :
    supporting_articles records
      = ((records.filter (fun r => decide (r.verification_status = chars "DIRECTLY SUPPORTED"
            ∨ r.verification_status = chars "INDIRECTLY SUPPORTED"))).map source_link) := by
  induction records with
  | nil => rfl
  | cons r rest ih =>
    by_cases h : r.verification_status = chars "DIRECTLY SUPPORTED"
        ∨ r.verification_status = chars "INDIRECTLY SUPPORTED"
    · simp [supporting_articles, List.filter_cons, h, ih]
    · simp [supporting_articles, List.filter_cons, h, ih]

/-- The retained list of `filter_by_relevance` is the input filtered by
the per-iteration keep decision, projected to the articles. -/
theorem filter_by_relevance_fst (threshold : ℚ) (ps : List (Article × Except Str Str)) :
    (filter_by_relevance threshold ps).1
      = ((ps.filter (relevance_keep threshold)).map Prod.fst) := by
  induction ps with
  | nil => rfl
  | cons p rest ih =>
    obtain ⟨a, o⟩ := p
    cases o with
    | error e => simp [filter_by_relevance, relevance_keep, List.filter_cons, ih]
    | ok txt =>
      by_cases h : (parse_relevance txt).1 ≥ threshold
      · simp [filter_by_relevance, relevance_keep, List.filter_cons, h, ih]
      · simp [filter_by_relevance, relevance_keep, List.filter_cons, h, ih]

/-- The analysis list of `filter_by_relevance` records exactly one
entry per input pair, in order. -/
theorem filter_by_relevance_snd (threshold : ℚ) (ps : List (Article × Except Str Str)) :
    (filter_by_relevance threshold ps).2 = ps.map relevance_entry := by
  induction ps with
  | nil => rfl
  | cons p rest ih =>
    obtain ⟨a, o⟩ := p
    cases o with
    | error e => simp [filter_by_relevance, relevance_entry, ih]
    | ok txt => simp [filter_by_relevance, relevance_entry, ih]

/-- Every relevance-analysis entry is keyed by its article's ID. -/
theorem relevance_entry_fst (p : Article × Except Str Str) :
    (relevance_entry p).1 = p.1.ID := by
  obtain ⟨a, o⟩ := p
  cases o <;> rfl

/-- `find?` returns the unique element satisfying the predicate. -/
theorem find_eq_some_of_unique (p : Str → Bool) (l : List Str) (k : Str)
    (hk : k ∈ l) (hpk : p k = true)
    (hothers : ∀ k2 ∈ l, k2 ≠ k → p k2 = false) :
    l.find? p = some k := by
  induction l with
  | nil => cases hk
  | cons a rest ih =>
    by_cases ha : a = k
    · subst ha
      simp [List.find?_cons, hpk]
    · have hpa : p a = false := hothers a (List.mem_cons_self a rest) ha
      have hk2 : k ∈ rest := by
        rcases List.mem_cons.mp hk with h | h
        · exact absurd h.symm ha
        · exact h
      rw [List.find?_cons, hpa]
      exact ih hk2 (fun k2 hm hne => hothers k2 (List.mem_cons_of_mem a hm) hne)

/-! ## Claim theorems -/

/-- Claim C1: Fact Verifier aggregation — for every Claim and list of
per-document VerificationRecords, exactly the records with status
`DIRECTLY SUPPORTED` or `INDIRECTLY SUPPORTED` are collected as
`[source](url)` citations; the verdict is `Verified` at ≥ 2
corroborating citations, `Partially Verified` at exactly 1 and
`Not Verified` at 0; records `[DIRECTLY, NOT, INDIRECTLY]` give
`Verified` with exactly the two citations, and `[NOT, NOT]` gives
`Not Verified` with zero citations and a result string containing
`No supporting articles`. -/
theorem fact_verifier_aggregation (claim : Str) (records : List VerificationRecord) :
    supporting_articles records
      = ((records.filter (fun r => decide (r.verification_status = chars "DIRECTLY SUPPORTED"
            ∨ r.verification_status = chars "INDIRECTLY SUPPORTED"))).map
          (fun r => chars "[" ++ r.article_source ++ chars "](" ++ r.article_url ++ chars ")"))
  ∧ (2 ≤ (supporting_articles records).length →
        claim_verdict (supporting_articles records) = chars "Verified")
  ∧ ((supporting_articles records).length = 1 →
        claim_verdict (supporting_articles records) = chars "Partially Verified")
  ∧ ((supporting_articles records).length = 0 →
        claim_verdict (supporting_articles records) = chars "Not Verified")
  ∧ supporting_articles [recDS, recNS, recIS]
      = [chars "[newsfirst_data](url1)", chars "[newswire_data](url2)"]
  ∧ claim_verdict (supporting_articles [recDS, recNS, recIS]) = chars "Verified"
  ∧ supporting_articles [recNS, recNS2] = []
  ∧ format_claim_result claim [recNS, recNS2]
      = claim ++ chars " - No supporting articles : (" ++ chars "Not Verified" ++ chars ")" := by
  refine ⟨?_, ?_, ?_, ?_, by decide, by decide, by decide, rfl⟩
  · rw [supporting_articles_eq]
    simp [source_link]
  · intro h
    simp [claim_verdict, h]
  · intro h
    have h2 : ¬ 2 ≤ (supporting_articles records).length := by omega
    simp [claim_verdict, h, h2]
  · intro h
    have h2 : ¬ 2 ≤ (supporting_articles records).length := by omega
    have h1 : ¬ (supporting_articles records).length = 1 := by omega
    simp [claim_verdict, h2, h1]

/-- Claim C1 witness: the concrete aggregation facts, obtained from the
aggregation theorem with its arithmetic hypotheses discharged. -/
theorem fact_verifier_aggregation_witness :
    claim_verdict (supporting_articles [recDS, recNS, recIS]) = chars "Verified"
  ∧ claim_verdict (supporting_articles [recNS, recNS2]) = chars "Not Verified" :=
  ⟨(fact_verifier_aggregation (chars "c") [recDS, recNS, recIS]).2.1 (by decide),
   (fact_verifier_aggregation (chars "c") [recNS, recNS2]).2.2.2.1 (by decide)⟩

/-- Claim C2: Query Refiner length guard — the returned value always
has length ≤ 3 × the raw query's length; a raised call returns the raw
query unchanged, and so does a stripped candidate longer than three
times the raw query. -/
theorem query_refiner_length_guard (original_query : Str) (completion : Except Str Str) :
    (generate_refined_query original_query completion).length ≤ 3 * original_query.length
  ∧ (∀ e, completion = Except.error e →
        generate_refined_query original_query completion = original_query)
  ∧ (∀ c, completion = Except.ok c →
        original_query.length * 3 < (pyStrip c).length →
        generate_refined_query original_query completion = original_query) := by
  refine ⟨?_, ?_, ?_⟩
  · cases completion with
    | error e =>
      show original_query.length ≤ 3 * original_query.length
      omega
    | ok c =>
      simp only [generate_refined_query]
      split
      · omega
      · next h => omega
  · rintro e rfl
    rfl
  · rintro c rfl h
    simp only [generate_refined_query]
    rw [if_pos h]

/-- Claim C2 witness: a 14-character query with a 50-character
completion is returned unchanged, as is a query whose refinement call
raises. -/
theorem query_refiner_length_guard_witness :
    generate_refined_query (chars "sri lanka news")
        (Except.ok (chars "aaaaaaaaaaaaaaaaaaaaaaaaaaaaaaaaaaaaaaaaaaaaaaaaaa"))
      = chars "sri lanka news"
  ∧ generate_refined_query (chars "sri lanka news") (Except.error (chars "rate limit"))
      = chars "sri lanka news" :=
  ⟨(query_refiner_length_guard (chars "sri lanka news") _).2.2 _ rfl (by decide),
   (query_refiner_length_guard (chars "sri lanka news") _).2.1 _ rfl⟩

/-- Claim C3: Search Client contract — for a non-empty index pool the
returned matches are the pool re-sorted by score in non-increasing
order and truncated to at most `top_k`; a raised index query yields the
empty match list. -/
theorem search_client_contract (pool : List PCMatch) (top_k : ℕ) (_hpool : pool ≠ []) :
    (∃ l, pool.Perm l ∧ List.Sorted scoreDesc l
        ∧ search_pinecone (Except.ok pool) top_k = l.take top_k)
  ∧ (search_pinecone (Except.ok pool) top_k).length ≤ top_k
  ∧ List.Sorted scoreDesc (search_pinecone (Except.ok pool) top_k)
  ∧ (∀ e, search_pinecone (Except.error e) top_k = ([] : List PCMatch)) := by
  refine ⟨⟨pool.insertionSort scoreDesc, (List.perm_insertionSort scoreDesc pool).symm,
      List.sorted_insertionSort scoreDesc pool, rfl⟩, ?_, ?_, fun _ => rfl⟩
  · simp only [search_pinecone, List.length_take]
    exact min_le_left _ _
  · exact (List.sorted_insertionSort scoreDesc pool).sublist (List.take_sublist _ _)

/-- Claim C3 witness: a concrete two-element pool truncated to one
sorted match. -/
theorem search_client_contract_witness :
    List.Sorted scoreDesc
        (search_pinecone (Except.ok [⟨chars "m1", mkRat 1 2⟩, ⟨chars "m2", mkRat 9 10⟩]) 1)
  ∧ (search_pinecone (Except.ok [⟨chars "m1", mkRat 1 2⟩, ⟨chars "m2", mkRat 9 10⟩]) 1).length ≤ 1 :=
  ⟨(search_client_contract [⟨chars "m1", mkRat 1 2⟩, ⟨chars "m2", mkRat 9 10⟩] 1 (by decide)).2.2.1,
   (search_client_contract [⟨chars "m1", mkRat 1 2⟩, ⟨chars "m2", mkRat 9 10⟩] 1 (by decide)).2.1⟩

/-- Claim C4: Relevance Filter fail-open — a candidate whose
language-model call raises is kept, as the identical record, in the
retained list for every threshold, and its analysis entry carries the
literal `"Error"` score sentinel, which is distinct from the numeric
0.5 default and never compared against the threshold. -/
theorem relevance_filter_fail_open (threshold : ℚ)
    (pre post : List (Article × Except Str Str)) (a : Article) (e : Str) :
    a ∈ (filter_by_relevance threshold (pre ++ (a, Except.error e) :: post)).1
  ∧ (a.ID, RelevanceInfo.mk (ScoreVal.sentinel (chars "Error"))
        (chars "Error during evaluation: " ++ e) a.Title)
      ∈ (filter_by_relevance threshold (pre ++ (a, Except.error e) :: post)).2
  ∧ ScoreVal.sentinel (chars "Error") ≠ ScoreVal.num (mkRat 1 2) := by
  refine ⟨?_, ?_, by decide⟩
  · rw [filter_by_relevance_fst]
    exact List.mem_map.mpr ⟨(a, Except.error e), List.mem_filter.mpr ⟨by simp, rfl⟩, rfl⟩
  · rw [filter_by_relevance_snd]
    exact List.mem_map.mpr ⟨(a, Except.error e), by simp, rfl⟩

/-- Claim C4 witness: a concrete article with a raised relevance call
is retained and flagged with the `"Error"` sentinel. -/
theorem relevance_filter_fail_open_witness :
    articleA ∈ (filter_by_relevance (mkRat 7 10) [(articleA, Except.error (chars "timeout"))]).1
  ∧ (articleA.ID, RelevanceInfo.mk (ScoreVal.sentinel (chars "Error"))
        (chars "Error during evaluation: " ++ chars "timeout") articleA.Title)
      ∈ (filter_by_relevance (mkRat 7 10) [(articleA, Except.error (chars "timeout"))]).2 :=
  ⟨(relevance_filter_fail_open (mkRat 7 10) [] [] articleA (chars "timeout")).1,
   (relevance_filter_fail_open (mkRat 7 10) [] [] articleA (chars "timeout")).2.1⟩

/-- Claim C5: Relevance threshold boundary — a candidate whose parsed
numeric score `s` satisfies `s ≥ threshold` is retained (the boundary
is inclusive), and one with `s < threshold` is excluded from the
retained list. -/
theorem relevance_threshold_boundary (threshold s : ℚ)
    (pre post : List (Article × Except Str Str)) (a : Article) (txt : Str)
    (hs : (parse_relevance txt).1 = s) :
    (s ≥ threshold →
        a ∈ (filter_by_relevance threshold (pre ++ (a, Except.ok txt) :: post)).1)
  ∧ (s < threshold →
      a ∉ (pre.map Prod.fst ++ post.map Prod.fst) →
      a ∉ (filter_by_relevance threshold (pre ++ (a, Except.ok txt) :: post)).1) := by
  constructor
  · intro hge
    rw [filter_by_relevance_fst]
    refine List.mem_map.mpr ⟨(a, Except.ok txt), List.mem_filter.mpr ⟨by simp, ?_⟩, rfl⟩
    show decide ((parse_relevance txt).1 ≥ threshold) = true
    rw [hs]
    exact decide_eq_true hge
  · intro hlt hnot hmem
    rw [filter_by_relevance_fst] at hmem
    obtain ⟨p, hpf, hpa⟩ := List.mem_map.mp hmem
    obtain ⟨hpmem, hpk⟩ := List.mem_filter.mp hpf
    rcases List.mem_append.mp hpmem with hp | hp
    · exact hnot (List.mem_append.mpr (Or.inl (hpa ▸ List.mem_map_of_mem Prod.fst hp)))
    · rcases List.mem_cons.mp hp with rfl | hp
      · have hge : (parse_relevance txt).1 ≥ threshold := of_decide_eq_true hpk
        rw [hs] at hge
        exact absurd hge (not_le.mpr hlt)
      · exact hnot (List.mem_append.mpr (Or.inr (hpa ▸ List.mem_map_of_mem Prod.fst hp)))

/-- Claim C5 witness: a concrete article scored exactly `SCORE: 0.7`
against threshold 0.7 is retained — the boundary is inclusive. -/
theorem relevance_threshold_boundary_witness :
    articleA ∈ (filter_by_relevance (mkRat 7 10)
        [(articleA, Except.ok (chars "relevant\nSCORE: 0.7"))]).1 :=
  (relevance_threshold_boundary (mkRat 7 10) (mkRat 7 10) [] [] articleA
      (chars "relevant\nSCORE: 0.7") (by decide)).1 (le_refl _)

/-- Claim C6 counterexample: the keyword-filter flattening of an
EntitySet holding the same surface string under two types produces the
lower-cased string twice — the flat list is not de-duplicated. -/
theorem entity_flattening_counterexample :
    keyword_filter_entities
        [(chars "PERSON", [chars "Colombo"]), (chars "LOCATION", [chars "Colombo"])]
      = [chars "colombo", chars "colombo"]
  ∧ ¬ (keyword_filter_entities
        [(chars "PERSON", [chars "Colombo"]), (chars "LOCATION", [chars "Colombo"])]).Nodup := by
  decide

/-- Claim C6 (amended): the keyword-filter flattening lower-cases every
extracted surface string and concatenates the per-type lists in order;
it performs no de-duplication, so the flat list is exactly the
case-folded concatenation (duplicates preserved). -/
theorem entity_flattening_amended (entities : EntityMap) :
    keyword_filter_entities entities = (process_query_flat entities).map pyLower := by
  induction entities with
  | nil => rfl
  | cons p rest ih =>
    obtain ⟨ty, entity_list⟩ := p
    cases entity_list with
    | nil => simpa [keyword_filter_entities, process_query_flat] using ih
    | cons x xs =>
      simp [keyword_filter_entities, process_query_flat, List.map_append, ih]

/-- Claim C6 witness: the amended flattening equation at a concrete
EntitySet. -/
theorem entity_flattening_witness :
    keyword_filter_entities [(chars "PERSON", [chars "Ranil"])]
      = (process_query_flat [(chars "PERSON", [chars "Ranil"])]).map pyLower :=
  entity_flattening_amended [(chars "PERSON", [chars "Ranil"])]

/-- Claim C7: Entity Extractor fail-closed — a raised language-model
call, or a raised JSON parse of its response, makes `extract_entities`
return the empty EntitySet rather than propagating the exception. -/
theorem entity_extractor_fail_closed (parseJson : Str → Except Str EntityMap)
    (response : Except Str Str) :
    (∀ e, response = Except.error e → extract_entities response parseJson = [])
  ∧ (∀ c e, response = Except.ok c → parseJson (pyStrip c) = Except.error e →
        extract_entities response parseJson = []) := by
  constructor
  · rintro e rfl
    rfl
  · rintro c e rfl hp
    simp [extract_entities, hp]

/-- Claim C7 witness: a raised call and a raised parse both yield the
empty EntitySet. -/
theorem entity_extractor_fail_closed_witness :
    extract_entities (Except.error (chars "connection refused"))
        (fun _ => Except.ok [(chars "PERSON", [chars "x"])]) = []
  ∧ extract_entities (Except.ok (chars "not json"))
        (fun _ => Except.error (chars "Expecting value")) = [] :=
  ⟨(entity_extractor_fail_closed _ _).1 _ rfl,
   (entity_extractor_fail_closed _ _).2 _ (chars "Expecting value") rfl rfl⟩

/-- Claim C8 counterexample: for the response line `CLAIM:x` (marker
not followed by a space) the parser retains the line but does not
remove the marker — the returned claim still starts with `CLAIM:`,
contradicting the claim that the marker is removed from each retained
line. -/
theorem claim_extraction_counterexample :
    extract_claims_from_summary (Except.ok (chars "CLAIM:x")) = [chars "CLAIM:x"]
  ∧ pyStartsWith (chars "CLAIM:x") (chars "CLAIM:") = true
  ∧ chars "CLAIM:x" ≠ chars "x" := by
  decide

/-- Claim C8 (amended): `extract_claims_from_summary` returns exactly
the response lines whose whitespace-stripped form starts with
`CLAIM:`, each transformed by deleting every occurrence of the string
`CLAIM: ` (marker followed by a space) and stripping the result — a
line whose marker is not followed by a space keeps the marker text —
and a raised call returns the empty list. -/
theorem claim_extraction_amended (response : Except Str Str) :
    (∀ e, response = Except.error e → extract_claims_from_summary response = [])
  ∧ (∀ t, response = Except.ok t →
        extract_claims_from_summary response
          = ((pySplitCh '\n' t).filter
                (fun line => pyStartsWith (pyStrip line) (chars "CLAIM:"))).map
              (fun line => pyStrip (pyReplace (chars "CLAIM: ") [] line))) := by
  constructor
  · rintro e rfl
    rfl
  · rintro t rfl
    exact extract_claims_lines_eq (pySplitCh '\n' t)

/-- Claim C8 witness: the amended parser on a raised call and on a
concrete three-line response with one marked claim line. -/
theorem claim_extraction_witness :
    extract_claims_from_summary (Except.error (chars "boom")) = []
  ∧ extract_claims_from_summary (Except.ok (chars "intro\nCLAIM: Fuel prices rose\nnote"))
      = [chars "Fuel prices rose"] := by
  refine ⟨(claim_extraction_amended _).1 _ rfl, ?_⟩
  rw [(claim_extraction_amended _).2 (chars "intro\nCLAIM: Fuel prices rose\nnote") rfl]
  decide

/-- Claim C9: Style Selector matching — the returned tag is always a
member of the fixed six-tag enumeration; the output
`I recommend event_list format` yields the tag `event_list` rather than
the full string; an output containing no known tag, or a raised call,
yields `summary_paragraph`; and an output containing exactly one known
tag as a substring yields that tag. -/
theorem style_selector_matching (response : Except Str Str) :
    determine_output_style response ∈ style_keys
  ∧ determine_output_style (Except.ok (chars "I recommend event_list format"))
      = chars "event_list"
  ∧ (∀ e, response = Except.error e →
        determine_output_style response = chars "summary_paragraph")
  ∧ (∀ txt, response = Except.ok txt →
        (∀ k ∈ style_keys, pyContains (pyLower (pyStrip txt)) k = false) →
        determine_output_style response = chars "summary_paragraph")
  ∧ (∀ txt k, response = Except.ok txt → k ∈ style_keys →
        pyContains (pyLower (pyStrip txt)) k = true →
        (∀ k2 ∈ style_keys, k2 ≠ k → pyContains (pyLower (pyStrip txt)) k2 = false) →
        determine_output_style response = k) := by
  refine ⟨?_, by decide, ?_, ?_, ?_⟩
  · cases response with
    | error e => exact (by decide : chars "summary_paragraph" ∈ style_keys)
    | ok txt =>
      simp only [determine_output_style]
      rcases hfind : style_keys.find? (fun style => pyContains (pyLower (pyStrip txt)) style)
        with _ | k
      · simp only [hfind]
        decide
      · simp only [hfind]
        exact List.mem_of_find?_eq_some hfind
  · rintro e rfl
    rfl
  · rintro txt rfl hnone
    simp only [determine_output_style]
    have h : style_keys.find? (fun style => pyContains (pyLower (pyStrip txt)) style) = none :=
      List.find?_eq_none.mpr (fun k hk => by simp [hnone k hk])
    simp only [h]
  · rintro txt k rfl hk hck hothers
    simp only [determine_output_style]
    rw [find_eq_some_of_unique _ style_keys k hk hck hothers]

/-- Claim C9 witness: the substring-match example, the raised-call
default, and a second substring match obtained by discharging the
unique-containment hypotheses. -/
theorem style_selector_matching_witness :
    determine_output_style (Except.ok (chars "I recommend event_list format"))
      = chars "event_list"
  ∧ determine_output_style (Except.error (chars "boom")) = chars "summary_paragraph"
  ∧ determine_output_style (Except.ok (chars "use point_form please")) = chars "point_form" :=
  ⟨(style_selector_matching (Except.ok (chars "I recommend event_list format"))).2.1,
   (style_selector_matching (Except.error (chars "boom"))).2.2.1 _ rfl,
   (style_selector_matching (Except.ok (chars "use point_form please"))).2.2.2.2
     (chars "use point_form please") (chars "point_form") rfl (by decide) (by decide) (by decide)⟩

/-- Claim C10: Relevance Filter invariants — for every input list and
every combination of per-candidate outcomes, the retained list is an
order-preserving subsequence of the input candidates (the identical
records), and, the IDs being distinct, every input candidate
contributes exactly one analysis entry keyed by its ID. -/
theorem relevance_filter_invariants (threshold : ℚ) (ps : List (Article × Except Str Str))
    (hnd : (ps.map (fun p => p.1.ID)).Nodup) :
    List.Sublist (filter_by_relevance threshold ps).1 (ps.map Prod.fst)
  ∧ (filter_by_relevance threshold ps).2.map Prod.fst = ps.map (fun p => p.1.ID)
  ∧ ∀ p ∈ ps, @List.count Str instBEqOfDecidableEq p.1.ID
      ((filter_by_relevance threshold ps).2.map Prod.fst) = 1 := by
  have hkeys : (filter_by_relevance threshold ps).2.map Prod.fst
      = ps.map (fun p => p.1.ID) := by
    rw [filter_by_relevance_snd, List.map_map]
    exact List.map_congr_left (fun p _ => relevance_entry_fst p)
  refine ⟨?_, hkeys, ?_⟩
  · rw [filter_by_relevance_fst]
    exact (List.filter_sublist ps).map Prod.fst
  · intro p hp
    rw [hkeys]
    exact List.count_eq_one_of_mem hnd (List.mem_map_of_mem _ hp)

/-- Claim C10 witness: a concrete two-candidate run (one scored, one
with a raised call) with distinct IDs. -/
theorem relevance_filter_invariants_witness :
    List.Sublist ((filter_by_relevance (mkRat 1 2)
        [(articleA, Except.ok (chars "good\nSCORE: 0.9")),
         (articleB, Except.error (chars "timeout"))]).1)
      [articleA, articleB]
  ∧ (filter_by_relevance (mkRat 1 2)
        [(articleA, Except.ok (chars "good\nSCORE: 0.9")),
         (articleB, Except.error (chars "timeout"))]).2.map Prod.fst
      = [articleA.ID, articleB.ID] :=
  ⟨(relevance_filter_invariants (mkRat 1 2)
      [(articleA, Except.ok (chars "good\nSCORE: 0.9")),
       (articleB, Except.error (chars "timeout"))] (by decide)).1,
   (relevance_filter_invariants (mkRat 1 2)
      [(articleA, Except.ok (chars "good\nSCORE: 0.9")),
       (articleB, Except.error (chars "timeout"))] (by decide)).2.1⟩
